import Mathlib

/-
A verification development for the SHeM ray-tracing simulation.

The geometric intersection kernels (scatterSphere, scatterTriag,
multiBackWall) are embedded from src/atom_ray_tracing_library/
intersect_detection3D.c; the MEX gateway and its histogram loop are
embedded from src/mexFiles/tracingSimpleGenMex.c.  Doubles are modelled
as real numbers.  Helper routines whose C implementations are not among
the provided sources (solve3x3, propagate, normalise, get_nth_aperture,
the per-ray tracing loop and the ray source) are modelled from the
specification and carry a doc comment saying so.
-/

namespace SHeM

/-- A 3-component double vector, modelled with real components. -/
structure Vec3 where
  x : ℝ
  y : ℝ
  z : ℝ

/-- Componentwise dot product of two 3-vectors. -/
def dot3 (u v : Vec3) : ℝ :=
  u.x * v.x + u.y * v.y + u.z * v.z

/-- Componentwise difference p - e of two 3-vectors, as the C kernels
compute it inline. -/
def vecSub (p e : Vec3) : Vec3 :=
  ⟨p.x - e.x, p.y - e.y, p.z - e.z⟩

/-- Modelled from the spec (section 4.2): propagate(origin, dir, t) =
origin + t * dir.  The C implementation lives in a source file that is
not among the provided sources; its use in multiBackWall is
src/atom_ray_tracing_library/intersect_detection3D.c line 318. -/
def propagate (e d : Vec3) (t : ℝ) : Vec3 :=
  ⟨e.x + t * d.x, e.y + t * d.y, e.z + t * d.z⟩

/-- Modelled from the spec (section 4.2, the normalise primitive):
divide a vector by its Euclidean norm.  The C implementation is not
among the provided sources; scatterSphere calls it on the sphere
normal (intersect_detection3D.c line 86). -/
noncomputable def normalise (v : Vec3) : Vec3 :=
  let m := Real.sqrt (dot3 v v)
  ⟨v.x / m, v.y / m, v.z / m⟩

/-- The state of a ray, from the Ray3D struct of the C sources:
position, direction, number of scattering events undergone, and the
(surface id, element index) pair naming the facet the ray last
scattered from (-1 meaning none). -/
structure Ray3D where
  position : Vec3
  direction : Vec3
  nScatters : ℕ
  on_element : ℤ
  on_surface : ℤ

/-- The analytic sphere, from the AnalytSphere struct: presence flag,
centre, radius and surface id. -/
structure AnalytSphere where
  make_sphere : Bool
  sphere_c : Vec3
  sphere_r : ℝ
  surf_index : ℤ

/-- One triangular facet of a surface together with its stored normal,
as delivered by get_element3D. -/
structure TriFace where
  a : Vec3
  b : Vec3
  c : Vec3
  normal : Vec3

/-- A triangulated surface: the ordered facet list (the index of a
facet in the list is its element index) and the surface id. -/
structure Surface3D where
  faces : List TriFace
  surf_index : ℤ

/-- The nearest-intersection record threaded by address through the C
kernels: squared distance to the nearest hit found so far, its
location, its outward normal, the triangle index (-1 for sphere and
plate hits) and the id of the surface hit. -/
structure HitState where
  min_dist : ℝ
  nearest_inter : Vec3
  nearest_n : Vec3
  tri_hit : ℤ
  which_surface : ℤ

/-- The quadratic coefficient beta computed by scatterSphere
(intersect_detection3D.c line 58). -/
def sphereBeta (the_ray : Ray3D) (the_sphere : AnalytSphere) : ℝ :=
  let e := the_ray.position
  let d := the_ray.direction
  2 * (d.x * (e.x - the_sphere.sphere_c.x) + d.y * (e.y - the_sphere.sphere_c.y) +
    d.z * (e.z - the_sphere.sphere_c.z))

/-- The quadratic coefficient gamma computed by scatterSphere, in the
expanded form the C code uses (intersect_detection3D.c lines 59-60). -/
def sphereGammaCode (the_ray : Ray3D) (the_sphere : AnalytSphere) : ℝ :=
  let e := the_ray.position
  let a := the_sphere.sphere_c.x
  let b := the_sphere.sphere_c.y
  let c := the_sphere.sphere_c.z
  (-the_sphere.sphere_r * the_sphere.sphere_r - 2 * e.x * a - 2 * e.y * b -
    2 * e.z * c + e.x * e.x + e.y * e.y + e.z * e.z + a * a + b * b + c * c)

/-- The smaller root (-beta - sqrt(beta^2 - 4 gamma)) / 2 of the
sphere quadratic, the distance scatterSphere computes
(intersect_detection3D.c line 69). -/
noncomputable def sphereSmallRoot (the_ray : Ray3D)
    (the_sphere : AnalytSphere) : ℝ :=
  (-sphereBeta the_ray the_sphere -
    Real.sqrt (sphereBeta the_ray the_sphere * sphereBeta the_ray the_sphere -
      4 * sphereGammaCode the_ray the_sphere)) / 2

/-- Ray-sphere intersection, embedded from scatterSphere
(intersect_detection3D.c lines 39-102).  Returns the updated
nearest-intersection record and the meets_sphere flag. -/
noncomputable def scatterSphere (the_ray : Ray3D) (the_sphere : AnalytSphere)
    (st : HitState) : HitState × Bool :=
  let e := the_ray.position
  let d := the_ray.direction
  let a := the_sphere.sphere_c.x
  let b := the_sphere.sphere_c.y
  let c := the_sphere.sphere_c.z
  let beta := sphereBeta the_ray the_sphere
  let gamma := sphereGammaCode the_ray the_sphere
  if beta * beta - 4 * gamma < 0 then (st, false)
  else
    let distance := sphereSmallRoot the_ray the_sphere
    if distance * distance < st.min_dist ∧ distance > 0 then
      ({ min_dist := distance * distance,
         nearest_inter := ⟨e.x + d.x * distance, e.y + d.y * distance,
           e.z + d.z * distance⟩,
         nearest_n := normalise ⟨(e.x + distance * d.x - a) / the_sphere.sphere_r,
           (e.y + distance * d.y - b) / the_sphere.sphere_r,
           (e.z + distance * d.z - c) / the_sphere.sphere_r⟩,
         tri_hit := -1,
         which_surface := the_sphere.surf_index }, true)
    else (st, false)

/-- The determinant of the 3x3 matrix with the given columns. -/
def det3 (c1 c2 c3 : Vec3) : ℝ :=
  c1.x * (c2.y * c3.z - c2.z * c3.y) - c2.x * (c1.y * c3.z - c1.z * c3.y) +
    c3.x * (c1.y * c2.z - c1.z * c2.y)

/-- Modelled from the spec (section 4.2): solve3x3(A, v, eps) returns
(u, ok) with ok false iff the absolute determinant of A is at most
eps, here realised by Cramer's rule on the columns of A.  The C
implementation is not among the provided sources; scatterTriag calls
it at intersect_detection3D.c line 222. -/
noncomputable def solve3x3 (c1 c2 c3 v : Vec3) (epsilon : ℝ) : Option Vec3 :=
  let det := det3 c1 c2 c3
  if |det| ≤ epsilon then none
  else some ⟨det3 v c2 c3 / det, det3 c1 v c3 / det, det3 c1 c2 v / det⟩

/-- The singularity tolerance of the ray-triangle solve
(intersect_detection3D.c line 220). -/
def triagEpsilon : ℝ := 0.0000000001

/-- The squared length of the movement vector from the ray origin e to
the candidate location e + t * d, exactly as scatterTriag computes it
(intersect_detection3D.c lines 238-250). -/
def traveledSq (e d : Vec3) (t : ℝ) : ℝ :=
  let new_loc := propagate e d t
  (new_loc.x - e.x) * (new_loc.x - e.x) + (new_loc.y - e.y) * (new_loc.y - e.y) +
    (new_loc.z - e.z) * (new_loc.z - e.z)

/-- The body of the facet loop of scatterTriag
(intersect_detection3D.c lines 142-268) for the facet with index j:
skip if the ray sits on this facet, if the facet is back-facing, or if
all three vertices lie strictly behind the ray; otherwise solve the
3x3 system for (beta, gamma, t), skip if singular, and accept a hit
when beta >= 0, gamma >= 0, beta + gamma <= 1 and t > 0, updating the
nearest-hit record only when the squared distance moved is below the
current minimum.  The state is the record paired with the meets flag. -/
noncomputable def triagBody (the_ray : Ray3D) (surfIdx : ℤ) (j : ℕ)
    (tri : TriFace) (st : HitState × Bool) : HitState × Bool :=
  let e := the_ray.position
  let d := the_ray.direction
  if the_ray.on_element = (j : ℤ) ∧ the_ray.on_surface = surfIdx then st
  else if dot3 tri.normal d > 0 then st
  else if dot3 (vecSub tri.a e) d < 0 ∧ dot3 (vecSub tri.b e) d < 0 ∧
      dot3 (vecSub tri.c e) d < 0 then st
  else
    match solve3x3 (vecSub tri.a tri.b) (vecSub tri.a tri.c) d (vecSub tri.a e)
        triagEpsilon with
    | none => st
    | some u =>
      if u.x ≥ 0 ∧ u.y ≥ 0 ∧ u.x + u.y ≤ 1 ∧ u.z > 0 then
        let new_loc := propagate e d u.z
        let dist := traveledSq e d u.z
        if dist < st.1.min_dist then
          ({ min_dist := dist, nearest_inter := new_loc,
             nearest_n := tri.normal, tri_hit := (j : ℤ),
             which_surface := surfIdx }, true)
        else (st.1, true)
      else st

/-- The facet loop of scatterTriag, folding triagBody over the facet
list with its running index. -/
noncomputable def scatterTriagAux (the_ray : Ray3D) (surfIdx : ℤ) :
    ℕ → List TriFace → HitState × Bool → HitState × Bool
  | _, [], st => st
  | j, tri :: rest, st =>
    scatterTriagAux the_ray surfIdx (j + 1) rest
      (triagBody the_ray surfIdx j tri st)

/-- Ray-triangulated-surface intersection, embedded from scatterTriag
(intersect_detection3D.c lines 130-269). -/
noncomputable def scatterTriag (the_ray : Ray3D) (sample : Surface3D)
    (st : HitState × Bool) : HitState × Bool :=
  scatterTriagAux the_ray sample.surf_index 0 sample.faces st

/-- One detector aperture of the back wall: centre (x, z) on the plane
y = 0 and the two full axes of the ellipse. -/
structure BackWallAperture where
  cx : ℝ
  cz : ℝ
  ax : ℝ
  az : ℝ

/-- The multi-aperture back wall, from the NBackWall struct: the
ordered aperture list (get_nth_aperture is positional lookup, per the
spec's ordered aperture set), the plate disc radius, whether the plate
itself scatters rays, and the surface id. -/
structure NBackWall where
  apertures : List BackWallAperture
  circle_plate_r : ℝ
  plate_represent : Bool
  surf_index : ℤ

/-- The aperture scan of multiBackWall (intersect_detection3D.c lines
320-341): return the 0-based index of the first aperture whose open
ellipse strictly contains the wall hit point, if any. -/
noncomputable def firstAperture (wall_hit : Vec3) :
    ℕ → List BackWallAperture → Option ℕ
  | _, [] => none
  | i, p :: rest =>
    let x_disp := wall_hit.x - p.cx
    let y_disp := wall_hit.z - p.cz
    if x_disp * x_disp / (0.25 * p.ax * p.ax) +
        y_disp * y_disp / (0.25 * p.az * p.az) < 1 then some i
    else firstAperture wall_hit (i + 1) rest

/-- The distance alpha = (0 - e_y) / d_y to the back-wall plane y = 0
along the ray (intersect_detection3D.c line 306). -/
noncomputable def wallAlpha (the_ray : Ray3D) : ℝ :=
  (0 - the_ray.position.y) / the_ray.direction.y

/-- The point where the ray meets the back-wall plane
(intersect_detection3D.c line 318). -/
noncomputable def wallHitPoint (the_ray : Ray3D) : Vec3 :=
  propagate the_ray.position the_ray.direction (wallAlpha the_ray)

/-- The nearest-hit record multiBackWall writes when the back wall is
the closest intersection: squared distance alpha^2, the wall hit
point, the back normal (0, -1, 0), triangle index -1 and the plate's
surface id (intersect_detection3D.c lines 346-358 and 376-388). -/
noncomputable def wallUpdate (the_ray : Ray3D) (wallPlate : NBackWall) : HitState :=
  { min_dist := wallAlpha the_ray * wallAlpha the_ray,
    nearest_inter := wallHitPoint the_ray,
    nearest_n := ⟨0, -1, 0⟩, tri_hit := -1,
    which_surface := wallPlate.surf_index }

/-- Back-wall intersection and detection, embedded from multiBackWall
(intersect_detection3D.c lines 275-396).  Returns the updated record,
the meets flag and which_aperture (0 when not detected, otherwise the
1-based index of the detector aperture entered).  The fall-through at
the end of the C function resets which_aperture to 0, which the fall
branch below reproduces. -/
noncomputable def multiBackWall (the_ray : Ray3D) (wallPlate : NBackWall)
    (st : HitState) : HitState × Bool × ℤ :=
  let d := the_ray.direction
  if d.y > 0 then
    let alpha := wallAlpha the_ray
    if alpha * alpha > st.min_dist then (st, false, 0)
    else
      let wall_hit := wallHitPoint the_ray
      let fall : HitState × Bool × ℤ :=
        let xx := wall_hit.x * wall_hit.x + wall_hit.z * wall_hit.z
        let r := wallPlate.circle_plate_r
        if xx ≤ r * r ∧ wallPlate.plate_represent then
          (if alpha * alpha < st.min_dist then wallUpdate the_ray wallPlate
           else st, true, 0)
        else (st, false, 0)
      match firstAperture wall_hit 0 wallPlate.apertures with
      | some i =>
        if alpha * alpha < st.min_dist then
          (wallUpdate the_ray wallPlate, false, (i : ℤ) + 1)
        else fall
      | none => fall
  else (st, false, 0)

/-- The outcome of one flight step of a ray. -/
inductive FlightResult where
  | escape : FlightResult
  | detect : ℤ → FlightResult
  | hit : HitState → FlightResult

/-- Modelled from the spec (sections 4.5 and 4.6) and the declaration
of scatterSimpleMulti in the provided tracing header: one flight step
evaluates the candidates in order sample surface, analytic sphere
(when present), multi-aperture back wall, on a fresh record whose
minimum squared distance starts at minInit (the spec initialises it to
plus infinity; it is kept as a parameter here).  A nonzero
which_aperture from the back wall means the ray was detected;
otherwise a set meets flag means the ray scatters at the nearest
recorded hit, and no hit at all means the ray escapes.  The C
implementation of scatterSimpleMulti is not among the provided
sources. -/
noncomputable def flight (sample : Surface3D) (the_sphere : AnalytSphere)
    (plate : NBackWall) (minInit : ℝ) (the_ray : Ray3D) : FlightResult :=
  let st0 : HitState := ⟨minInit, ⟨0, 0, 0⟩, ⟨0, 0, 0⟩, -1, -1⟩
  let s1 := scatterTriag the_ray sample (st0, false)
  let s2 := if the_sphere.make_sphere then
      (let r := scatterSphere the_ray the_sphere s1.1
       (r.1, s1.2 || r.2))
    else s1
  let s3 := multiBackWall the_ray plate s2.1
  if s3.2.2 ≠ 0 then FlightResult.detect s3.2.2
  else if s2.2 || s3.2.1 then FlightResult.hit s3.1
  else FlightResult.escape

/-- The way a traced ray ends, with its final scatter count. -/
inductive RayOutcome where
  | detected : ℕ → ℤ → RayOutcome
  | killed : ℕ → RayOutcome
  | escaped : ℕ → RayOutcome

/-- Modelled from the spec (section 4.6 state machine): the per-ray
tracing loop trace_ray_simple, whose C implementation is not among the
provided sources.  Flight either escapes, is detected (terminal, with
the current scatter count), or hits a surface; on a hit the ray moves
to the hit point, records the facet it is on, increments its scatter
count, takes a fresh direction from the oracle dirs (standing for the
random scattering draw), and is killed once the count reaches
maxScatter. -/
noncomputable def traceRaySimple (sample : Surface3D) (the_sphere : AnalytSphere)
    (plate : NBackWall) (minInit : ℝ) (dirs : ℕ → Vec3) (maxScatter : ℕ)
    (the_ray : Ray3D) : RayOutcome :=
  match flight sample the_sphere plate minInit the_ray with
  | FlightResult.escape => RayOutcome.escaped the_ray.nScatters
  | FlightResult.detect ap => RayOutcome.detected the_ray.nScatters ap
  | FlightResult.hit h =>
    if maxScatter ≤ the_ray.nScatters + 1 then
      RayOutcome.killed (the_ray.nScatters + 1)
    else
      traceRaySimple sample the_sphere plate minInit dirs maxScatter
        { position := h.nearest_inter, direction := dirs the_ray.nScatters,
          nScatters := the_ray.nScatters + 1, on_element := h.tri_hit,
          on_surface := h.which_surface }
termination_by maxScatter - the_ray.nScatters
decreasing_by omega

/-- The per-run tallies of the MEX gateway
(src/mexFiles/tracingSimpleGenMex.c): the detected-ray count, the
killed-ray count and the histogram of scatter counts of detected rays
(the three outputs the gateway returns). -/
structure SimState where
  cntr_detected : ℕ
  killed : ℕ
  numScattersRay : List ℕ

/-- One iteration of the ray loop of mexFunction
(tracingSimpleGenMex.c lines 263-280) applied to the outcome of a
traced ray: a detected ray increments cntr_detected and the histogram
cell indexed by its scatter count minus one, a killed ray increments
killed, an escaped ray changes nothing. -/
def recordOutcome (st : SimState) (o : RayOutcome) : SimState :=
  match o with
  | RayOutcome.detected n _ =>
    { st with
      cntr_detected := st.cntr_detected + 1
      numScattersRay :=
        st.numScattersRay.set (n - 1) (st.numScattersRay.getD (n - 1) 0 + 1) }
  | RayOutcome.killed _ => { st with killed := st.killed + 1 }
  | RayOutcome.escaped _ => st

/-- The ray loop of mexFunction folded over a list of ray outcomes,
starting from zero counters and a histogram of maxScatter zero cells
(tracingSimpleGenMex.c lines 221-224, 253 and 263-280). -/
def runLoop (maxScatter : ℕ) (outs : List RayOutcome) : SimState :=
  outs.foldl recordOutcome ⟨0, 0, List.replicate maxScatter 0⟩

/-- Does this outcome say the ray escaped (died naturally). -/
def isEscaped (o : RayOutcome) : Bool :=
  match o with
  | RayOutcome.escaped _ => true
  | _ => false

/-- The number of rays in a list of outcomes that escaped (died
naturally), as counted by the traceSimpleMulti wrapper via
N - detected - killed. -/
def escapedCount (outs : List RayOutcome) : ℕ :=
  outs.countP isEscaped

/-- The outcomes of tracing each input ray in turn, every ray paired
with the direction oracle standing for its random scattering draws
(tracingSimpleGenMex.c lines 263-272). -/
noncomputable def simTraceOutcomes (sample : Surface3D)
    (the_sphere : AnalytSphere) (plate : NBackWall) (minInit : ℝ)
    (maxScatter : ℕ) (rays : List (Ray3D × (ℕ → Vec3))) : List RayOutcome :=
  rays.map (fun p =>
    traceRaySimple sample the_sphere plate minInit p.2 maxScatter p.1)

/-- The argument-count guard and main loop of mexFunction
(tracingSimpleGenMex.c lines 110-118 and 263-286): with a wrong number
of right-hand-side inputs (18 expected) or left-hand-side outputs (3
expected and 3 returned, despite the in-code message naming six) the
gateway aborts through mexErrMsgIdAndTxt with a diagnostic, before any
ray is traced; otherwise it traces every input ray and returns the
three tallies. -/
noncomputable def mexFunctionGateway (nrhs nlhs : ℕ) (sample : Surface3D)
    (the_sphere : AnalytSphere) (plate : NBackWall) (minInit : ℝ)
    (maxScatter : ℕ) (rays : List (Ray3D × (ℕ → Vec3))) :
    Except String SimState :=
  if nrhs ≠ 18 then Except.error "Eighteen inputs required for tracingMex."
  else if nlhs ≠ 3 then Except.error "Six outpus required for tracingMex."
  else Except.ok
    (runLoop maxScatter
      (simTraceOutcomes sample the_sphere plate minInit maxScatter rays))

/-- Does this outcome say the ray was detected. -/
def isDetected (o : RayOutcome) : Bool :=
  match o with
  | RayOutcome.detected _ _ => true
  | _ => false

/-- Does this outcome say the ray was killed for exhausting the
scatter budget. -/
def isKilled (o : RayOutcome) : Bool :=
  match o with
  | RayOutcome.killed _ => true
  | _ => false

/-- A concrete ray whose origin is the centre of the concrete sphere
below: a probe for the inside-the-sphere behaviour of scatterSphere. -/
def rayCentre : Ray3D := ⟨⟨0, 0, 0⟩, ⟨0, 0, 1⟩, 0, -1, -1⟩

/-- A concrete unit sphere at the origin. -/
def sphereUnit : AnalytSphere := ⟨true, ⟨0, 0, 0⟩, 1, 2⟩

/-- A fresh nearest-hit record with minimum squared distance 10. -/
def stTen : HitState := ⟨10, ⟨0, 0, 0⟩, ⟨0, 0, 0⟩, -1, -1⟩

/-- A concrete ray passing beside the unit sphere (its quadratic
discriminant is negative). -/
def rayBeside : Ray3D := ⟨⟨0, 0, 3⟩, ⟨1, 0, 0⟩, 0, -1, -1⟩

/-- A concrete ray approaching the unit sphere head-on along the
z-axis from z = 3. -/
def rayTowards : Ray3D := ⟨⟨0, 0, 3⟩, ⟨0, 0, -1⟩, 0, -1, -1⟩

/-- A concrete horizontal triangle in the plane y = -1 whose interior
contains the point (0, -1, 0), with upward normal. -/
def triFloor : TriFace := ⟨⟨-1, -1, -1⟩, ⟨3, -1, -1⟩, ⟨-1, -1, 3⟩, ⟨0, 1, 0⟩⟩

/-- A one-facet sample surface with surface id 0 built on triFloor. -/
def sampleFloor : Surface3D := ⟨[triFloor], 0⟩

/-- An analytic sphere whose presence flag is off, so the sphere
candidate is skipped. -/
def sphereOff : AnalytSphere := ⟨false, ⟨0, 0, 0⟩, 1, 2⟩

/-- A concrete back wall with a single aperture of full axes (1, 1)
centred at the origin of the plane y = 0, plate disc radius 5, plate
scattering on, surface id 1. -/
def wallOne : NBackWall := ⟨[⟨0, 0, 1, 1⟩], 5, true, 1⟩

/-- A direction oracle that always scatters rays straight up. -/
def dirsUp : ℕ → Vec3 := fun _ => ⟨0, 1, 0⟩

/-- A concrete source ray fired straight down from (0, 1, 0). -/
def rayDown : Ray3D := ⟨⟨0, 1, 0⟩, ⟨0, -1, 0⟩, 0, -1, -1⟩

/-- The ray state after rayDown scatters off facet 0 of sampleFloor at
(0, -1, 0) and takes the direction straight up. -/
def rayAfterFloor : Ray3D := ⟨⟨0, -1, 0⟩, ⟨0, 1, 0⟩, 1, 0, 0⟩

/-- A concrete horizontal triangle in the plane y = 0, used as a
generic facet for the self-intersection probe. -/
def triZero : TriFace := ⟨⟨-1, 0, -1⟩, ⟨3, 0, -1⟩, ⟨-1, 0, 3⟩, ⟨0, 1, 0⟩⟩

/-- A one-facet sample surface with surface id 0 built on triZero. -/
def sampleZero : Surface3D := ⟨[triZero], 0⟩

/-- A concrete ray that sits on facet 0 of a surface with id 0. -/
def rayOnFacet : Ray3D := ⟨⟨0, 0, 0⟩, ⟨0, -1, 0⟩, 1, 0, 0⟩

/-- A fresh nearest-hit record with minimum squared distance 100. -/
def stHundred : HitState := ⟨100, ⟨0, 0, 0⟩, ⟨0, 0, 0⟩, -1, -1⟩

/-- A fresh nearest-hit record with minimum squared distance 50. -/
def stFifty : HitState := ⟨50, ⟨0, 0, 0⟩, ⟨0, 0, 0⟩, -1, -1⟩

/-- A concrete ray fired straight down from (0, 2, 0), a candidate
for the solve stage of the ray-triangle kernel against triZero. -/
def rayDownTwo : Ray3D := ⟨⟨0, 2, 0⟩, ⟨0, -1, 0⟩, 0, -1, -1⟩

/-- A concrete upward ray from below the plane y = 0 at x = 2. -/
def rayUpTwo : Ray3D := ⟨⟨2, -2, 0⟩, ⟨0, 2, 0⟩, 0, -1, -1⟩

/-- A back wall with a single aperture of full axes (2, 2) centred at
(2, 0), plate disc radius 5, plate scattering on, surface id 7. -/
def wallTwo : NBackWall := ⟨[⟨2, 0, 2, 2⟩], 5, true, 7⟩

/-- A fresh nearest-hit record with minimum squared distance 9. -/
def stNine : HitState := ⟨9, ⟨0, 0, 0⟩, ⟨0, 0, 0⟩, -1, -1⟩

/-- A concrete upward ray from (0, -1, 0) aimed through the aperture
of wallOne. -/
def rayUpOne : Ray3D := ⟨⟨0, -1, 0⟩, ⟨0, 1, 0⟩, 0, -1, -1⟩

/-- A nearest-hit record whose minimum squared distance 1/2 is already
smaller than the squared plate distance of rayUpOne. -/
noncomputable def stHalf : HitState := ⟨1/2, ⟨0, 0, 0⟩, ⟨0, 0, 0⟩, -1, -1⟩

/-- A concrete ray above the back-wall plane moving away from it in
the positive y-direction, so the plane intersection lies behind its
origin. -/
def rayAbove : Ray3D := ⟨⟨0, 1, 0⟩, ⟨0, 1, 0⟩, 0, -1, -1⟩

/-- A back wall with a single aperture of full axes (1, 1) centred at
the origin, plate disc radius 5, plate scattering on, surface id 3. -/
def wallThree : NBackWall := ⟨[⟨0, 0, 1, 1⟩], 5, true, 3⟩

/-- A ray not travelling towards the back wall leaves the record
untouched, meets nothing and is not detected
(intersect_detection3D.c lines 285-286 and 393-395). -/
theorem multiBackWall_nonpos_dy (the_ray : Ray3D) (wallPlate : NBackWall)
    (st : HitState) (h : ¬ the_ray.direction.y > 0) :
    multiBackWall the_ray wallPlate st = (st, false, 0) := by
  simp only [multiBackWall, if_neg h]

/-- C9: whenever scatterSphere reports no hit (meets_sphere = 0),
whether because the discriminant is negative, the smaller root is not
strictly positive, or the candidate is not nearer than the current
minimum, the nearest-hit record (min_dist, nearest_inter, nearest_n,
tri_hit, which_surface) is returned unchanged. -/
theorem scatterSphere_no_hit_frame (the_ray : Ray3D)
    (the_sphere : AnalytSphere) (st : HitState)
    (h : (scatterSphere the_ray the_sphere st).2 = false) :
    (scatterSphere the_ray the_sphere st).1 = st := by
  simp only [scatterSphere] at h ⊢
  split_ifs at h ⊢ <;> rfl

/-- Witness for C9 at a concrete input: a ray passing beside the unit
sphere misses it and the record is unchanged. -/
theorem scatterSphere_no_hit_frame_witness :
    (scatterSphere rayBeside sphereUnit stTen).2 = false ∧
    (scatterSphere rayBeside sphereUnit stTen).1 = stTen := by
  have h : (scatterSphere rayBeside sphereUnit stTen).2 = false := by
    simp only [scatterSphere, sphereBeta, sphereGammaCode, rayBeside,
      sphereUnit, stTen]
    norm_num
  exact ⟨h, scatterSphere_no_hit_frame rayBeside sphereUnit stTen h⟩

/-- The sphere candidate replaces the record only with a strictly
smaller squared distance (intersect_detection3D.c line 71). -/
theorem scatterSphere_record (the_ray : Ray3D) (the_sphere : AnalytSphere)
    (st : HitState) :
    (scatterSphere the_ray the_sphere st).1 = st ∨
      (scatterSphere the_ray the_sphere st).1.min_dist < st.min_dist := by
  simp only [scatterSphere]
  split_ifs with h1 h2
  · simp
  · exact Or.inr (by simpa using h2.1)
  · simp

/-- One facet-loop iteration replaces the record only with a strictly
smaller squared distance (intersect_detection3D.c line 253). -/
theorem triagBody_record (the_ray : Ray3D) (surfIdx : ℤ) (j : ℕ)
    (tri : TriFace) (st : HitState × Bool) :
    (triagBody the_ray surfIdx j tri st).1 = st.1 ∨
      (triagBody the_ray surfIdx j tri st).1.min_dist < st.1.min_dist := by
  simp only [triagBody]
  split_ifs with h1 h2 h3
  · simp
  · simp
  · simp
  · split
    · simp
    · split_ifs with h4 h5
      · exact Or.inr (by simpa using h5)
      · simp
      · simp

/-- The facet loop replaces the record only with a strictly smaller
squared distance. -/
theorem scatterTriagAux_record (the_ray : Ray3D) (surfIdx : ℤ) :
    ∀ (faces : List TriFace) (j : ℕ) (st : HitState × Bool),
      (scatterTriagAux the_ray surfIdx j faces st).1 = st.1 ∨
        (scatterTriagAux the_ray surfIdx j faces st).1.min_dist <
          st.1.min_dist := by
  intro faces
  induction faces with
  | nil =>
    intro j st
    exact Or.inl rfl
  | cons tri rest ih =>
    intro j st
    have hb := triagBody_record the_ray surfIdx j tri st
    have ha := ih (j + 1) (triagBody the_ray surfIdx j tri st)
    show (scatterTriagAux the_ray surfIdx (j + 1) rest
        (triagBody the_ray surfIdx j tri st)).1 = st.1 ∨
      (scatterTriagAux the_ray surfIdx (j + 1) rest
        (triagBody the_ray surfIdx j tri st)).1.min_dist < st.1.min_dist
    rcases ha with ha | ha <;> rcases hb with hb | hb
    · exact Or.inl (ha.trans hb)
    · exact Or.inr (by rw [ha]; exact hb)
    · exact Or.inr (by rw [← hb]; exact ha)
    · exact Or.inr (ha.trans hb)

/-- The back-wall candidate replaces the record only with a strictly
smaller squared distance (intersect_detection3D.c lines 346 and 376). -/
theorem multiBackWall_record (the_ray : Ray3D) (wallPlate : NBackWall)
    (st : HitState) :
    (multiBackWall the_ray wallPlate st).1 = st ∨
      (multiBackWall the_ray wallPlate st).1.min_dist < st.min_dist := by
  by_cases h1 : the_ray.direction.y > 0
  · by_cases h2 : wallAlpha the_ray * wallAlpha the_ray > st.min_dist
    · simp only [multiBackWall, if_pos h1, if_pos h2]
      simp
    · simp only [multiBackWall, if_pos h1, if_neg h2]
      rcases hfa : firstAperture (wallHitPoint the_ray) 0
          wallPlate.apertures with _ | i <;>
        simp only [hfa] <;>
        split_ifs <;>
        first
          | exact Or.inr (by
              simpa [wallUpdate] using
                ‹wallAlpha the_ray * wallAlpha the_ray < st.min_dist›)
          | simp
  · rw [multiBackWall_nonpos_dy the_ray wallPlate st h1]
    simp

/-- C2 (amended): the coefficients computed by scatterSphere satisfy
beta = 2 d . (e - c) and gamma = |e - c|^2 - r^2; a negative
discriminant reports a miss with the record unchanged; otherwise,
writing t for the smaller root (-beta - sqrt(beta^2 - 4 gamma)) / 2,
a hit is reported exactly when t is strictly positive and t^2 is
below the current minimum squared distance, in which case t^2 is
recorded as the new minimum; in particular a ray whose origin lies
strictly inside the sphere (gamma < 0, so the smaller root is
negative) is reported as a miss, not as a hit at the larger root. -/
theorem scatterSphere_smaller_root (the_ray : Ray3D)
    (the_sphere : AnalytSphere) (st : HitState) :
    sphereBeta the_ray the_sphere =
      2 * dot3 the_ray.direction
        (vecSub the_ray.position the_sphere.sphere_c) ∧
    sphereGammaCode the_ray the_sphere =
      dot3 (vecSub the_ray.position the_sphere.sphere_c)
        (vecSub the_ray.position the_sphere.sphere_c) -
        the_sphere.sphere_r * the_sphere.sphere_r ∧
    (sphereBeta the_ray the_sphere * sphereBeta the_ray the_sphere -
        4 * sphereGammaCode the_ray the_sphere < 0 →
      scatterSphere the_ray the_sphere st = (st, false)) ∧
    (0 ≤ sphereBeta the_ray the_sphere * sphereBeta the_ray the_sphere -
        4 * sphereGammaCode the_ray the_sphere →
      ((scatterSphere the_ray the_sphere st).2 = true ↔
        (sphereSmallRoot the_ray the_sphere *
            sphereSmallRoot the_ray the_sphere < st.min_dist ∧
          sphereSmallRoot the_ray the_sphere > 0)) ∧
      ((scatterSphere the_ray the_sphere st).2 = true →
        (scatterSphere the_ray the_sphere st).1.min_dist =
          sphereSmallRoot the_ray the_sphere *
            sphereSmallRoot the_ray the_sphere)) ∧
    (sphereGammaCode the_ray the_sphere < 0 →
      (scatterSphere the_ray the_sphere st).2 = false) := by
  have hbeta : sphereBeta the_ray the_sphere =
      2 * dot3 the_ray.direction
        (vecSub the_ray.position the_sphere.sphere_c) := by
    simp only [sphereBeta, dot3, vecSub]
  have hgamma : sphereGammaCode the_ray the_sphere =
      dot3 (vecSub the_ray.position the_sphere.sphere_c)
        (vecSub the_ray.position the_sphere.sphere_c) -
        the_sphere.sphere_r * the_sphere.sphere_r := by
    simp only [sphereGammaCode, dot3, vecSub]; ring
  have hmiss : sphereBeta the_ray the_sphere * sphereBeta the_ray the_sphere -
      4 * sphereGammaCode the_ray the_sphere < 0 →
      scatterSphere the_ray the_sphere st = (st, false) := by
    intro h
    simp only [scatterSphere, if_pos h]
  have hiff : 0 ≤ sphereBeta the_ray the_sphere * sphereBeta the_ray the_sphere -
      4 * sphereGammaCode the_ray the_sphere →
      ((scatterSphere the_ray the_sphere st).2 = true ↔
        (sphereSmallRoot the_ray the_sphere *
            sphereSmallRoot the_ray the_sphere < st.min_dist ∧
          sphereSmallRoot the_ray the_sphere > 0)) := by
    intro h
    simp only [scatterSphere, if_neg (not_lt.mpr h)]
    split_ifs with hc
    · simpa using hc
    · simpa using hc
  have hmin : 0 ≤ sphereBeta the_ray the_sphere * sphereBeta the_ray the_sphere -
      4 * sphereGammaCode the_ray the_sphere →
      (scatterSphere the_ray the_sphere st).2 = true →
      (scatterSphere the_ray the_sphere st).1.min_dist =
        sphereSmallRoot the_ray the_sphere *
          sphereSmallRoot the_ray the_sphere := by
    intro h
    simp only [scatterSphere, if_neg (not_lt.mpr h)]
    split_ifs with hc
    · intro _; rfl
    · intro hm; simp at hm
  have hinside : sphereGammaCode the_ray the_sphere < 0 →
      (scatterSphere the_ray the_sphere st).2 = false := by
    intro hg
    rcases lt_or_le (sphereBeta the_ray the_sphere *
        sphereBeta the_ray the_sphere -
        4 * sphereGammaCode the_ray the_sphere) 0 with hd | hd
    · rw [hmiss hd]
    · have h1 : sphereBeta the_ray the_sphere * sphereBeta the_ray the_sphere <
          sphereBeta the_ray the_sphere * sphereBeta the_ray the_sphere -
          4 * sphereGammaCode the_ray the_sphere := by nlinarith
      have h2 : |sphereBeta the_ray the_sphere| <
          Real.sqrt (sphereBeta the_ray the_sphere *
            sphereBeta the_ray the_sphere -
            4 * sphereGammaCode the_ray the_sphere) := by
        rw [← Real.sqrt_mul_self_eq_abs]
        exact Real.sqrt_lt_sqrt (mul_self_nonneg _) h1
      have h3 : -sphereBeta the_ray the_sphere ≤
          |sphereBeta the_ray the_sphere| := neg_le_abs _
      have hroot : sphereSmallRoot the_ray the_sphere < 0 := by
        simp only [sphereSmallRoot]
        linarith
      cases hmeets : (scatterSphere the_ray the_sphere st).2
      · rfl
      · exfalso
        obtain ⟨_, hpos⟩ := (hiff hd).mp hmeets
        linarith
  exact ⟨hbeta, hgamma, hmiss, fun h => ⟨hiff h, hmin h⟩, hinside⟩

/-- Counterexample to C2 as stated: for a ray whose origin is the
sphere centre, the quadratic t^2 + beta t + gamma = t^2 - 1 has the
smaller non-negative root 1 (its roots are -1 and 1), whose squared
distance 1 is below the current minimum 10, yet scatterSphere reports
a miss and leaves the record unchanged, because the code takes the
smaller root -1 and rejects it as non-positive. -/
theorem scatterSphere_inside_counterexample :
    sphereBeta rayCentre sphereUnit = 0 ∧
    sphereGammaCode rayCentre sphereUnit = -1 ∧
    (1 : ℝ) * 1 + sphereBeta rayCentre sphereUnit * 1 +
      sphereGammaCode rayCentre sphereUnit = 0 ∧
    (-1 : ℝ) * (-1) + sphereBeta rayCentre sphereUnit * (-1) +
      sphereGammaCode rayCentre sphereUnit = 0 ∧
    (0 : ℝ) < 1 ∧ (1 : ℝ) * 1 < stTen.min_dist ∧
    (scatterSphere rayCentre sphereUnit stTen).2 = false ∧
    (scatterSphere rayCentre sphereUnit stTen).1 = stTen := by
  have h4 : Real.sqrt (4 : ℝ) = 2 := by
    rw [show (4 : ℝ) = 2 ^ 2 by norm_num]
    exact Real.sqrt_sq (by norm_num)
  have hb : sphereBeta rayCentre sphereUnit = 0 := by
    norm_num [sphereBeta, rayCentre, sphereUnit]
  have hg : sphereGammaCode rayCentre sphereUnit = -1 := by
    norm_num [sphereGammaCode, rayCentre, sphereUnit]
  have hroot : sphereSmallRoot rayCentre sphereUnit = -1 := by
    simp only [sphereSmallRoot, hb, hg]
    norm_num [h4]
  have hsc : scatterSphere rayCentre sphereUnit stTen = (stTen, false) := by
    simp only [scatterSphere, hb, hg, hroot]
    norm_num
  refine ⟨hb, hg, by rw [hb, hg]; ring, by rw [hb, hg]; ring, by norm_num,
    by norm_num [stTen], by rw [hsc], by rw [hsc]⟩

/-- Witness for the amended C2 at a concrete input: a ray approaching
the unit sphere head-on has non-negative discriminant, and the hit
report is equivalent to the smaller root being positive and nearer
than the current minimum. -/
theorem scatterSphere_smaller_root_witness :
    0 ≤ sphereBeta rayTowards sphereUnit * sphereBeta rayTowards sphereUnit -
      4 * sphereGammaCode rayTowards sphereUnit ∧
    ((scatterSphere rayTowards sphereUnit stTen).2 = true ↔
      (sphereSmallRoot rayTowards sphereUnit *
          sphereSmallRoot rayTowards sphereUnit < stTen.min_dist ∧
        sphereSmallRoot rayTowards sphereUnit > 0)) := by
  have hd : 0 ≤ sphereBeta rayTowards sphereUnit *
      sphereBeta rayTowards sphereUnit -
      4 * sphereGammaCode rayTowards sphereUnit := by
    norm_num [sphereBeta, sphereGammaCode, rayTowards, sphereUnit]
  exact ⟨hd,
    ((scatterSphere_smaller_root rayTowards sphereUnit stTen).2.2.2.1 hd).1⟩

/-- C4: for a facet that reaches the solve stage (not the ray's own
facet, not back-facing, not entirely behind the ray), the 3x3 solve is
skipped as singular exactly when the absolute determinant is at most
epsilon = 1e-10; a candidate is accepted as a hit (the meets flag)
exactly when beta >= 0, gamma >= 0, beta + gamma <= 1 and t > 0, and
the nearest-hit record is replaced only when additionally the
candidate's squared distance is below the current minimum. -/
theorem triagBody_solve (the_ray : Ray3D) (surfIdx : ℤ) (j : ℕ)
    (tri : TriFace) (st : HitState × Bool)
    (h1 : ¬(the_ray.on_element = (j : ℤ) ∧ the_ray.on_surface = surfIdx))
    (h2 : ¬ dot3 tri.normal the_ray.direction > 0)
    (h3 : ¬(dot3 (vecSub tri.a the_ray.position) the_ray.direction < 0 ∧
        dot3 (vecSub tri.b the_ray.position) the_ray.direction < 0 ∧
        dot3 (vecSub tri.c the_ray.position) the_ray.direction < 0)) :
    triagEpsilon = 1e-10 ∧
    (|det3 (vecSub tri.a tri.b) (vecSub tri.a tri.c) the_ray.direction| ≤
        triagEpsilon →
      triagBody the_ray surfIdx j tri st = st) ∧
    (∀ u, solve3x3 (vecSub tri.a tri.b) (vecSub tri.a tri.c)
        the_ray.direction (vecSub tri.a the_ray.position) triagEpsilon =
        some u →
      ((triagBody the_ray surfIdx j tri st).2 = true ↔
        (st.2 = true ∨ (u.x ≥ 0 ∧ u.y ≥ 0 ∧ u.x + u.y ≤ 1 ∧ u.z > 0))) ∧
      ((u.x ≥ 0 ∧ u.y ≥ 0 ∧ u.x + u.y ≤ 1 ∧ u.z > 0) →
        (traveledSq the_ray.position the_ray.direction u.z <
            st.1.min_dist →
          triagBody the_ray surfIdx j tri st =
            ({ min_dist := traveledSq the_ray.position the_ray.direction u.z,
               nearest_inter :=
                 propagate the_ray.position the_ray.direction u.z,
               nearest_n := tri.normal, tri_hit := (j : ℤ),
               which_surface := surfIdx }, true)) ∧
        (¬ traveledSq the_ray.position the_ray.direction u.z <
            st.1.min_dist →
          triagBody the_ray surfIdx j tri st = (st.1, true))) ∧
      (¬(u.x ≥ 0 ∧ u.y ≥ 0 ∧ u.x + u.y ≤ 1 ∧ u.z > 0) →
        triagBody the_ray surfIdx j tri st = st)) := by
  refine ⟨by norm_num [triagEpsilon], ?_, ?_⟩
  · intro hdet
    have hnone : solve3x3 (vecSub tri.a tri.b) (vecSub tri.a tri.c)
        the_ray.direction (vecSub tri.a the_ray.position) triagEpsilon =
        none := by
      simp only [solve3x3, if_pos hdet]
    simp only [triagBody, if_neg h1, if_neg h2, if_neg h3, hnone]
  · intro u hu
    simp only [triagBody, if_neg h1, if_neg h2, if_neg h3, hu]
    refine ⟨?_, ?_, ?_⟩
    · split_ifs with hacc hdist
      · simp [hacc]
      · simp [hacc]
      · simp [hacc]
    · intro hacc
      constructor
      · intro hdist
        simp only [if_pos hacc, if_pos hdist]
      · intro hdist
        simp only [if_pos hacc, if_neg hdist]
    · intro hacc
      simp only [if_neg hacc]

/-- Witness for C4 at a concrete input: a ray fired straight down at
the horizontal facet triZero from (0, 2, 0) reaches the solve stage,
the solve returns (1/4, 1/4, 2), the candidate is accepted and the
record is replaced with squared distance 4 and facet index 5. -/
theorem triagBody_solve_witness :
    solve3x3 (vecSub triZero.a triZero.b) (vecSub triZero.a triZero.c)
      rayDownTwo.direction (vecSub triZero.a rayDownTwo.position)
      triagEpsilon = some ⟨1/4, 1/4, 2⟩ ∧
    triagBody rayDownTwo 0 5 triZero (stFifty, false) =
      ({ min_dist := 4, nearest_inter := ⟨0, 0, 0⟩, nearest_n := ⟨0, 1, 0⟩,
         tri_hit := 5, which_surface := 0 }, true) := by
  have h1 : ¬(rayDownTwo.on_element = ((5 : ℕ) : ℤ) ∧
      rayDownTwo.on_surface = 0) := by
    norm_num [rayDownTwo]
  have h2 : ¬ dot3 triZero.normal rayDownTwo.direction > 0 := by
    norm_num [dot3, triZero, rayDownTwo]
  have h3 : ¬(dot3 (vecSub triZero.a rayDownTwo.position)
        rayDownTwo.direction < 0 ∧
      dot3 (vecSub triZero.b rayDownTwo.position) rayDownTwo.direction < 0 ∧
      dot3 (vecSub triZero.c rayDownTwo.position) rayDownTwo.direction <
        0) := by
    norm_num [dot3, vecSub, triZero, rayDownTwo]
  have hsol : solve3x3 (vecSub triZero.a triZero.b)
      (vecSub triZero.a triZero.c) rayDownTwo.direction
      (vecSub triZero.a rayDownTwo.position) triagEpsilon =
      some ⟨1/4, 1/4, 2⟩ := by
    simp only [solve3x3, det3, vecSub, triZero, rayDownTwo, triagEpsilon]
    norm_num
  have hacc : ((⟨1/4, 1/4, 2⟩ : Vec3).x ≥ 0 ∧ (⟨1/4, 1/4, 2⟩ : Vec3).y ≥ 0 ∧
      (⟨1/4, 1/4, 2⟩ : Vec3).x + (⟨1/4, 1/4, 2⟩ : Vec3).y ≤ 1 ∧
      (⟨1/4, 1/4, 2⟩ : Vec3).z > 0) := by
    norm_num
  have hdist : traveledSq rayDownTwo.position rayDownTwo.direction
      ((⟨1/4, 1/4, 2⟩ : Vec3).z) < (stFifty, false).1.min_dist := by
    norm_num [traveledSq, propagate, rayDownTwo, stFifty]
  have happ := ((triagBody_solve rayDownTwo 0 5 triZero (stFifty, false)
    h1 h2 h3).2.2 ⟨1/4, 1/4, 2⟩ hsol).2.1 hacc |>.1 hdist
  refine ⟨hsol, ?_⟩
  rw [happ]
  norm_num [traveledSq, propagate, rayDownTwo, triZero]

/-- A facet the ray sits on is skipped outright by the facet loop
(intersect_detection3D.c lines 151-154). -/
theorem triagBody_self_skip (the_ray : Ray3D) (surfIdx : ℤ) (j : ℕ)
    (tri : TriFace) (st : HitState × Bool)
    (h1 : the_ray.on_element = (j : ℤ))
    (h2 : the_ray.on_surface = surfIdx) :
    triagBody the_ray surfIdx j tri st = st := by
  simp only [triagBody, if_pos (And.intro h1 h2)]

/-- One facet-loop iteration either keeps the recorded facet index or
replaces it with its own index. -/
theorem triagBody_tri_hit (the_ray : Ray3D) (surfIdx : ℤ) (j : ℕ)
    (tri : TriFace) (st : HitState × Bool) :
    (triagBody the_ray surfIdx j tri st).1.tri_hit = st.1.tri_hit ∨
      (triagBody the_ray surfIdx j tri st).1.tri_hit = (j : ℤ) := by
  simp only [triagBody]
  split_ifs with h1 h2 h3
  · simp
  · simp
  · simp
  · split
    · simp
    · split_ifs with h4 h5
      · simp
      · simp
      · simp

/-- The facet loop never reports the facet the ray sits on: if the
incoming record does not name it, neither does the outgoing one. -/
theorem scatterTriagAux_excludes (the_ray : Ray3D) (surfIdx : ℤ)
    (jSelf : ℕ) (hOn : the_ray.on_element = (jSelf : ℤ))
    (hS : the_ray.on_surface = surfIdx) :
    ∀ (faces : List TriFace) (i : ℕ) (st : HitState × Bool),
      st.1.tri_hit ≠ (jSelf : ℤ) →
      (scatterTriagAux the_ray surfIdx i faces st).1.tri_hit ≠
        (jSelf : ℤ) := by
  intro faces
  induction faces with
  | nil => intro i st h; exact h
  | cons tri rest ih =>
    intro i st h
    show (scatterTriagAux the_ray surfIdx (i + 1) rest
      (triagBody the_ray surfIdx i tri st)).1.tri_hit ≠ (jSelf : ℤ)
    apply ih
    by_cases hij : i = jSelf
    · subst hij
      rw [triagBody_self_skip the_ray surfIdx i tri st hOn hS]
      exact h
    · rcases triagBody_tri_hit the_ray surfIdx i tri st with hc | hc
      · rw [hc]; exact h
      · rw [hc]
        intro hcast
        exact hij (by exact_mod_cast hcast)

/-- C6: for a ray whose (on_surface, on_element) pair names facet j of
the sample surface, the next intersection test over that surface
excludes facet j: it is never reported as the hit of the following
flight step (whose fresh record does not name j). -/
theorem scatterTriag_excludes_current_facet (the_ray : Ray3D)
    (sample : Surface3D) (st : HitState × Bool) (j : ℕ)
    (hS : the_ray.on_surface = sample.surf_index)
    (hOn : the_ray.on_element = (j : ℤ))
    (h : st.1.tri_hit ≠ (j : ℤ)) :
    (scatterTriag the_ray sample st).1.tri_hit ≠ (j : ℤ) :=
  scatterTriagAux_excludes the_ray sample.surf_index j hOn hS
    sample.faces 0 st h

/-- Witness for C6 at a concrete input: a ray sitting on facet 0 of
sampleZero never gets facet 0 reported as its next hit. -/
theorem scatterTriag_excludes_current_facet_witness :
    rayOnFacet.on_surface = sampleZero.surf_index ∧
    rayOnFacet.on_element = ((0 : ℕ) : ℤ) ∧
    (stHundred, false).1.tri_hit ≠ ((0 : ℕ) : ℤ) ∧
    (scatterTriag rayOnFacet sampleZero (stHundred, false)).1.tri_hit ≠
      ((0 : ℕ) : ℤ) := by
  have hS : rayOnFacet.on_surface = sampleZero.surf_index := rfl
  have hOn : rayOnFacet.on_element = ((0 : ℕ) : ℤ) := rfl
  have h : (stHundred, false).1.tri_hit ≠ ((0 : ℕ) : ℤ) := by
    norm_num [stHundred]
  exact ⟨hS, hOn, h, scatterTriag_excludes_current_facet rayOnFacet
    sampleZero (stHundred, false) 0 hS hOn h⟩

/-- C3 (amended): for a ray with d_y > 0 tested against the back
wall, the intersection point lies in the plane y = 0 at t = -e_y/d_y;
whenever the squared plane distance alpha^2 exceeds the current
minimum, aperture index 0 and no hit are reported with the record
unchanged; provided alpha^2 is strictly below the current minimum,
the aperture ellipses are tested in sequence order and the first
whose interior contains the hit point yields the 1-based detected
aperture index (with the record updated to the wall hit); when no
aperture contains the hit, the hit lies within the plate disc of
radius r, and plate_represent is set, a plate surface hit is
recorded; otherwise nothing is recorded; when d_y <= 0 no back-wall
hit and no detection is recorded. -/
theorem multiBackWall_aperture_spec (the_ray : Ray3D)
    (wallPlate : NBackWall) (st : HitState) :
    (¬ the_ray.direction.y > 0 →
      multiBackWall the_ray wallPlate st = (st, false, 0)) ∧
    (the_ray.direction.y > 0 →
      (wallHitPoint the_ray).y = 0 ∧
      (wallAlpha the_ray * wallAlpha the_ray > st.min_dist →
        multiBackWall the_ray wallPlate st = (st, false, 0)) ∧
      (wallAlpha the_ray * wallAlpha the_ray < st.min_dist →
        (∀ i, firstAperture (wallHitPoint the_ray) 0
            wallPlate.apertures = some i →
          multiBackWall the_ray wallPlate st =
            (wallUpdate the_ray wallPlate, false, (i : ℤ) + 1)) ∧
        (firstAperture (wallHitPoint the_ray) 0 wallPlate.apertures =
            none →
          (((wallHitPoint the_ray).x * (wallHitPoint the_ray).x +
              (wallHitPoint the_ray).z * (wallHitPoint the_ray).z ≤
              wallPlate.circle_plate_r * wallPlate.circle_plate_r ∧
              wallPlate.plate_represent = true) →
            multiBackWall the_ray wallPlate st =
              (wallUpdate the_ray wallPlate, true, 0)) ∧
          (¬((wallHitPoint the_ray).x * (wallHitPoint the_ray).x +
              (wallHitPoint the_ray).z * (wallHitPoint the_ray).z ≤
              wallPlate.circle_plate_r * wallPlate.circle_plate_r ∧
              wallPlate.plate_represent = true) →
            multiBackWall the_ray wallPlate st = (st, false, 0))))) := by
  refine ⟨multiBackWall_nonpos_dy the_ray wallPlate st, ?_⟩
  intro hdy
  have hy : (wallHitPoint the_ray).y = 0 := by
    simp only [wallHitPoint, propagate, wallAlpha]
    field_simp
  refine ⟨hy, ?_, ?_⟩
  · intro hgt
    simp only [multiBackWall, if_pos hdy, if_pos hgt]
  intro hlt
  have hng : ¬(wallAlpha the_ray * wallAlpha the_ray > st.min_dist) :=
    not_lt.mpr (le_of_lt hlt)
  constructor
  · intro i hfa
    simp only [multiBackWall, if_pos hdy, if_neg hng, hfa, if_pos hlt]
  · intro hfa
    constructor
    · intro hplate
      simp only [multiBackWall, if_pos hdy, if_neg hng, hfa,
        if_pos hplate, if_pos hlt]
    · intro hplate
      simp only [multiBackWall, if_pos hdy, if_neg hng, hfa,
        if_neg hplate]

/-- Counterexample to C3 as stated: an upward ray aimed straight
through the aperture of wallOne, with a current minimum squared
distance 1/2 smaller than the squared plane distance 1, reports
aperture index 0 (no detection) even though its d_y > 0 and the first
aperture's interior contains the plane hit point. -/
theorem multiBackWall_min_dist_counterexample :
    rayUpOne.direction.y > 0 ∧
    wallHitPoint rayUpOne = ⟨0, 0, 0⟩ ∧
    firstAperture (wallHitPoint rayUpOne) 0 wallOne.apertures = some 0 ∧
    multiBackWall rayUpOne wallOne stHalf = (stHalf, false, 0) := by
  have hdy : rayUpOne.direction.y > 0 := by norm_num [rayUpOne]
  have hwh : wallHitPoint rayUpOne = ⟨0, 0, 0⟩ := by
    simp only [wallHitPoint, propagate, wallAlpha, rayUpOne]
    norm_num
  have hfa : firstAperture ((⟨0, 0, 0⟩ : Vec3)) 0 wallOne.apertures =
      some 0 := by
    simp only [firstAperture, wallOne]
    norm_num
  have hgt : wallAlpha rayUpOne * wallAlpha rayUpOne > stHalf.min_dist := by
    norm_num [wallAlpha, rayUpOne, stHalf]
  have hmbw : multiBackWall rayUpOne wallOne stHalf = (stHalf, false, 0) := by
    simp only [multiBackWall, if_pos hdy, if_pos hgt]
  exact ⟨hdy, hwh, by rw [hwh]; exact hfa, hmbw⟩

/-- Witness for the amended C3 at a concrete input: an upward ray
whose plane hit (2, 0, 0) falls inside the single aperture of wallTwo
and whose squared plane distance 1 is below the minimum 9 is detected
with aperture index 1 and the record updated to the wall hit. -/
theorem multiBackWall_aperture_spec_witness :
    rayUpTwo.direction.y > 0 ∧
    wallAlpha rayUpTwo * wallAlpha rayUpTwo < stNine.min_dist ∧
    firstAperture (wallHitPoint rayUpTwo) 0 wallTwo.apertures = some 0 ∧
    multiBackWall rayUpTwo wallTwo stNine =
      (wallUpdate rayUpTwo wallTwo, false, ((0 : ℕ) : ℤ) + 1) := by
  have hdy : rayUpTwo.direction.y > 0 := by norm_num [rayUpTwo]
  have hlt : wallAlpha rayUpTwo * wallAlpha rayUpTwo < stNine.min_dist := by
    norm_num [wallAlpha, rayUpTwo, stNine]
  have hwh : wallHitPoint rayUpTwo = ⟨2, 0, 0⟩ := by
    simp only [wallHitPoint, propagate, wallAlpha, rayUpTwo]
    norm_num
  have hfa : firstAperture (wallHitPoint rayUpTwo) 0 wallTwo.apertures =
      some 0 := by
    rw [hwh]
    simp only [firstAperture, wallTwo]
    norm_num
  exact ⟨hdy, hlt, hfa,
    (((multiBackWall_aperture_spec rayUpTwo wallTwo stNine).2 hdy).2.2
      hlt).1 0 hfa⟩

/-- C10: the back-wall test imposes no positivity requirement on the
plate distance alpha = -e_y/d_y: the concrete ray rayAbove has d_y > 0
and e_y > 0, so alpha = -1 < 0 and the plane intersection point lies
behind the ray origin, yet since alpha^2 = 1 is below the current
minimum 10 the ray is recorded as an aperture detection (index 1,
record updated to the plane point). -/
theorem multiBackWall_negative_alpha_detection :
    rayAbove.position.y > 0 ∧ rayAbove.direction.y > 0 ∧
    wallAlpha rayAbove < 0 ∧
    wallHitPoint rayAbove = ⟨0, 0, 0⟩ ∧
    multiBackWall rayAbove wallThree stTen =
      (⟨1, ⟨0, 0, 0⟩, ⟨0, -1, 0⟩, -1, 3⟩, false, 1) := by
  have hdy : rayAbove.direction.y > 0 := by norm_num [rayAbove]
  have halpha : wallAlpha rayAbove = -1 := by
    norm_num [wallAlpha, rayAbove]
  have hwh : wallHitPoint rayAbove = ⟨0, 0, 0⟩ := by
    simp only [wallHitPoint, propagate, wallAlpha, rayAbove]
    norm_num
  have hfa : firstAperture (wallHitPoint rayAbove) 0
      wallThree.apertures = some 0 := by
    rw [hwh]
    simp only [firstAperture, wallThree]
    norm_num
  have hng : ¬(wallAlpha rayAbove * wallAlpha rayAbove >
      stTen.min_dist) := by
    rw [halpha]; norm_num [stTen]
  have hlt : wallAlpha rayAbove * wallAlpha rayAbove < stTen.min_dist := by
    rw [halpha]; norm_num [stTen]
  refine ⟨by norm_num [rayAbove], hdy, by rw [halpha]; norm_num, hwh, ?_⟩
  simp only [multiBackWall, if_pos hdy, if_neg hng, hfa, if_pos hlt]
  simp only [wallUpdate, halpha, hwh, wallThree]
  norm_num

/-- C5: across the ordered candidate evaluation, each of the three
kernels (sample triangles via scatterTriag, the sphere via
scatterSphere, the plate via multiBackWall) replaces the nearest-hit
record only when the new candidate's squared distance is strictly
smaller than the current minimum; on an exact tie the record passes
through unchanged, so the earlier-evaluated candidate is retained. -/
theorem nearest_hit_strict_replacement (the_ray : Ray3D)
    (the_sphere : AnalytSphere) (sample : Surface3D)
    (wallPlate : NBackWall) (st1 : HitState) (st2 : HitState × Bool)
    (st3 : HitState) :
    ((scatterSphere the_ray the_sphere st1).1 = st1 ∨
      (scatterSphere the_ray the_sphere st1).1.min_dist < st1.min_dist) ∧
    ((scatterTriag the_ray sample st2).1 = st2.1 ∨
      (scatterTriag the_ray sample st2).1.min_dist < st2.1.min_dist) ∧
    ((multiBackWall the_ray wallPlate st3).1 = st3 ∨
      (multiBackWall the_ray wallPlate st3).1.min_dist < st3.min_dist) :=
  ⟨scatterSphere_record the_ray the_sphere st1,
   scatterTriagAux_record the_ray sample.surf_index sample.faces 0 st2,
   multiBackWall_record the_ray wallPlate st3⟩

/-- A flight step can report a detection only for a ray moving in the
positive y-direction, because only multiBackWall sets which_aperture
and it requires d_y > 0. -/
theorem flight_detect_dy (sample : Surface3D) (the_sphere : AnalytSphere)
    (plate : NBackWall) (minInit : ℝ) (the_ray : Ray3D) (ap : ℤ)
    (h : flight sample the_sphere plate minInit the_ray =
      FlightResult.detect ap) :
    the_ray.direction.y > 0 := by
  by_contra hdy
  simp only [flight] at h
  rw [multiBackWall_nonpos_dy the_ray plate _ hdy] at h
  simp at h
  split at h <;> split at h <;> simp_all

/-- Any ray entering the tracing loop with a downward direction or at
least one scattering event already on record is, if detected, detected
with a scatter count in [1, maxScatter]. -/
theorem trace_detected_bound (sample : Surface3D)
    (the_sphere : AnalytSphere) (plate : NBackWall) (minInit : ℝ)
    (dirs : ℕ → Vec3) (maxScatter : ℕ) :
    ∀ (k : ℕ) (the_ray : Ray3D), maxScatter - the_ray.nScatters ≤ k →
      (the_ray.direction.y ≤ 0 ∨ 1 ≤ the_ray.nScatters) →
      the_ray.nScatters ≤ maxScatter →
      ∀ n ap, traceRaySimple sample the_sphere plate minInit dirs
          maxScatter the_ray = RayOutcome.detected n ap →
        1 ≤ n ∧ n ≤ maxScatter := by
  intro k
  induction k with
  | zero =>
    intro the_ray hk hdisj hle n ap htr
    rw [traceRaySimple.eq_def] at htr
    rcases hf : flight sample the_sphere plate minInit the_ray
      with _ | ap0 | hrec
    · rw [hf] at htr; simp at htr
    · rw [hf] at htr
      simp only [RayOutcome.detected.injEq] at htr
      obtain ⟨hn, -⟩ := htr
      subst hn
      refine ⟨?_, hle⟩
      rcases hdisj with hdy | h1
      · have := flight_detect_dy sample the_sphere plate minInit
          the_ray ap0 hf
        linarith
      · exact h1
    · rw [hf] at htr
      have hkill : maxScatter ≤ the_ray.nScatters + 1 := by omega
      simp only [if_pos hkill] at htr
      exact absurd htr (by simp)
  | succ k ih =>
    intro the_ray hk hdisj hle n ap htr
    rw [traceRaySimple.eq_def] at htr
    rcases hf : flight sample the_sphere plate minInit the_ray
      with _ | ap0 | hrec
    · rw [hf] at htr; simp at htr
    · rw [hf] at htr
      simp only [RayOutcome.detected.injEq] at htr
      obtain ⟨hn, -⟩ := htr
      subst hn
      refine ⟨?_, hle⟩
      rcases hdisj with hdy | h1
      · have := flight_detect_dy sample the_sphere plate minInit
          the_ray ap0 hf
        linarith
      · exact h1
    · rw [hf] at htr
      by_cases hkill : maxScatter ≤ the_ray.nScatters + 1
      · simp only [if_pos hkill] at htr
        exact absurd htr (by simp)
      · simp only [if_neg hkill] at htr
        refine ih (Ray3D.mk hrec.nearest_inter (dirs the_ray.nScatters)
          (the_ray.nScatters + 1) hrec.tri_hit hrec.which_surface)
          ?_ ?_ ?_ n ap htr
        · show maxScatter - (the_ray.nScatters + 1) ≤ k
          omega
        · exact Or.inr (by show 1 ≤ the_ray.nScatters + 1; omega)
        · show the_ray.nScatters + 1 ≤ maxScatter
          omega

/-- C1: for every ray entering the tracing loop fresh from the source
(zero scatter count, direction towards the sample, which lies below
the back-wall plane) that the loop reports as detected, the recorded
scatter count n lies in [1, maxScatter], so the histogram increment
numScattersRay[n - 1] indexes within the output array of length
maxScatter. -/
theorem tracing_detected_scatter_bound (sample : Surface3D)
    (the_sphere : AnalytSphere) (plate : NBackWall) (minInit : ℝ)
    (dirs : ℕ → Vec3) (maxScatter : ℕ) (the_ray : Ray3D) (n : ℕ) (ap : ℤ)
    (h0 : the_ray.nScatters = 0) (hdy : the_ray.direction.y ≤ 0)
    (htr : traceRaySimple sample the_sphere plate minInit dirs maxScatter
      the_ray = RayOutcome.detected n ap) :
    1 ≤ n ∧ n ≤ maxScatter ∧ n - 1 < maxScatter := by
  have hb := trace_detected_bound sample the_sphere plate minInit dirs
    maxScatter maxScatter the_ray (by omega) (Or.inl hdy) (by omega)
    n ap htr
  exact ⟨hb.1, hb.2, by omega⟩

/-- The first flight of the concrete run: rayDown hits facet 0 of
sampleFloor at (0, -1, 0), squared distance 4. -/
theorem flight_rayDown :
    flight sampleFloor sphereOff wallOne 1000000 rayDown =
      FlightResult.hit ⟨4, ⟨0, -1, 0⟩, ⟨0, 1, 0⟩, 0, 0⟩ := by
  have hsol : solve3x3 (vecSub triFloor.a triFloor.b)
      (vecSub triFloor.a triFloor.c) rayDown.direction
      (vecSub triFloor.a rayDown.position) triagEpsilon =
      some ⟨1/4, 1/4, 2⟩ := by
    simp only [solve3x3, det3, vecSub, triFloor, rayDown, triagEpsilon]
    norm_num
  have htb : triagBody rayDown 0 0 triFloor
      ((⟨1000000, ⟨0, 0, 0⟩, ⟨0, 0, 0⟩, -1, -1⟩ : HitState), false) =
      ((⟨4, ⟨0, -1, 0⟩, ⟨0, 1, 0⟩, 0, 0⟩ : HitState), true) := by
    simp only [triagBody, hsol]
    split_ifs with h1 h2 h3 h4 h5
    · exact absurd h1 (by norm_num [rayDown])
    · exact absurd h2 (by norm_num [dot3, triFloor, rayDown])
    · exact absurd h3 (by norm_num [dot3, vecSub, triFloor, rayDown])
    · norm_num [traveledSq, propagate, rayDown, triFloor]
    · exact absurd (by norm_num [traveledSq, propagate, rayDown]) h5
    · exact absurd (by norm_num) h4
  have hst : scatterTriag rayDown sampleFloor
      ((⟨1000000, ⟨0, 0, 0⟩, ⟨0, 0, 0⟩, -1, -1⟩ : HitState), false) =
      ((⟨4, ⟨0, -1, 0⟩, ⟨0, 1, 0⟩, 0, 0⟩ : HitState), true) := by
    simp only [scatterTriag, sampleFloor, scatterTriagAux, htb]
  simp only [flight, hst, sphereOff]
  rw [multiBackWall_nonpos_dy rayDown wallOne _ (by norm_num [rayDown])]
  simp

/-- The second flight of the concrete run: rayAfterFloor skips its own
facet and is detected through the aperture of wallOne. -/
theorem flight_rayAfterFloor :
    flight sampleFloor sphereOff wallOne 1000000 rayAfterFloor =
      FlightResult.detect 1 := by
  have htb2 : triagBody rayAfterFloor 0 0 triFloor
      ((⟨1000000, ⟨0, 0, 0⟩, ⟨0, 0, 0⟩, -1, -1⟩ : HitState), false) =
      ((⟨1000000, ⟨0, 0, 0⟩, ⟨0, 0, 0⟩, -1, -1⟩ : HitState), false) :=
    triagBody_self_skip rayAfterFloor 0 0 triFloor _ rfl rfl
  have hst2 : scatterTriag rayAfterFloor sampleFloor
      ((⟨1000000, ⟨0, 0, 0⟩, ⟨0, 0, 0⟩, -1, -1⟩ : HitState), false) =
      ((⟨1000000, ⟨0, 0, 0⟩, ⟨0, 0, 0⟩, -1, -1⟩ : HitState), false) := by
    simp only [scatterTriag, sampleFloor, scatterTriagAux, htb2]
  have hdy : rayAfterFloor.direction.y > 0 := by norm_num [rayAfterFloor]
  have halpha : wallAlpha rayAfterFloor = 1 := by
    norm_num [wallAlpha, rayAfterFloor]
  have hwh : wallHitPoint rayAfterFloor = ⟨0, 0, 0⟩ := by
    simp only [wallHitPoint, propagate, wallAlpha, rayAfterFloor]
    norm_num
  have hfa : firstAperture (wallHitPoint rayAfterFloor) 0
      wallOne.apertures = some 0 := by
    rw [hwh]
    simp only [firstAperture, wallOne]
    norm_num
  have hng : ¬(wallAlpha rayAfterFloor * wallAlpha rayAfterFloor >
      (⟨1000000, ⟨0, 0, 0⟩, ⟨0, 0, 0⟩, -1, -1⟩ : HitState).min_dist) := by
    rw [halpha]; norm_num
  have hlt : wallAlpha rayAfterFloor * wallAlpha rayAfterFloor <
      (⟨1000000, ⟨0, 0, 0⟩, ⟨0, 0, 0⟩, -1, -1⟩ : HitState).min_dist := by
    rw [halpha]; norm_num
  have hmb2 : multiBackWall rayAfterFloor wallOne
      (⟨1000000, ⟨0, 0, 0⟩, ⟨0, 0, 0⟩, -1, -1⟩ : HitState) =
      (⟨1, ⟨0, 0, 0⟩, ⟨0, -1, 0⟩, -1, 1⟩, false, 1) := by
    simp only [multiBackWall, if_pos hdy, if_neg hng, hfa, if_pos hlt]
    simp only [wallUpdate, halpha, hwh, wallOne]
    norm_num
  simp only [flight, hst2, sphereOff]
  norm_num [hmb2]

/-- Witness for C1 at a concrete run: rayDown scatters once off the
floor facet, is detected through the aperture after exactly 1 sample
scattering event, and 1 lies in [1, 2] with histogram index 0 in
bounds. -/
theorem tracing_detected_scatter_bound_witness :
    traceRaySimple sampleFloor sphereOff wallOne 1000000 dirsUp 2
      rayDown = RayOutcome.detected 1 1 ∧
    (1 ≤ 1 ∧ 1 ≤ 2 ∧ 1 - 1 < 2) := by
  have htr : traceRaySimple sampleFloor sphereOff wallOne 1000000 dirsUp 2
      rayDown = RayOutcome.detected 1 1 := by
    rw [traceRaySimple.eq_def]
    simp only [flight_rayDown]
    rw [if_neg (by norm_num [rayDown] : ¬(2 ≤ rayDown.nScatters + 1))]
    show traceRaySimple sampleFloor sphereOff wallOne 1000000 dirsUp 2
      rayAfterFloor = RayOutcome.detected 1 1
    rw [traceRaySimple.eq_def]
    simp only [flight_rayAfterFloor]
    norm_num [rayAfterFloor]
  exact ⟨htr, tracing_detected_scatter_bound sampleFloor sphereOff wallOne
    1000000 dirsUp 2 rayDown 1 1 rfl (by norm_num [rayDown]) htr⟩

/-- Incrementing one in-range cell of a histogram raises its sum by
one (the effect of numScattersRay[n-1]++ on the histogram total). -/
theorem sum_set_inc (l : List ℕ) : ∀ i, i < l.length →
    (l.set i (l.getD i 0 + 1)).sum = l.sum + 1 := by
  induction l with
  | nil => intro i h; simp at h
  | cons a tl ih =>
    intro i h
    cases i with
    | zero =>
      simp only [List.set, List.getD_cons_zero, List.sum_cons]
      omega
    | succ i =>
      have h' : i < tl.length := by simpa using h
      have hx := ih i h'
      simp only [List.set, List.getD_cons_succ, List.sum_cons]
      omega

/-- Every traced outcome is exactly one of detected, killed or
escaped. -/
theorem outcome_partition (outs : List RayOutcome) :
    outs.countP isDetected + outs.countP isKilled + escapedCount outs =
      outs.length := by
  induction outs with
  | nil => simp [escapedCount]
  | cons o rest ih =>
    simp only [escapedCount, List.countP_cons, List.length_cons] at *
    rcases o with ⟨n, ap⟩ | n | n <;>
      simp [isDetected, isKilled, isEscaped] <;> omega

/-- The fold of the mexFunction ray loop counts one detection per
detected outcome (in both the counter and the histogram total,
provided every detected scatter count is in range), one kill per
killed outcome, and keeps the histogram length. -/
theorem runLoop_fold (maxScatter : ℕ) :
    ∀ (outs : List RayOutcome) (st : SimState),
      (∀ o ∈ outs, ∀ n ap, o = RayOutcome.detected n ap →
        1 ≤ n ∧ n ≤ maxScatter) →
      st.numScattersRay.length = maxScatter →
      (outs.foldl recordOutcome st).cntr_detected =
          st.cntr_detected + outs.countP isDetected ∧
      (outs.foldl recordOutcome st).killed =
          st.killed + outs.countP isKilled ∧
      (outs.foldl recordOutcome st).numScattersRay.sum =
          st.numScattersRay.sum + outs.countP isDetected ∧
      (outs.foldl recordOutcome st).numScattersRay.length = maxScatter := by
  intro outs
  induction outs with
  | nil =>
    intro st hall hlen
    simp [hlen]
  | cons o rest ih =>
    intro st hall hlen
    have hallrest : ∀ o2 ∈ rest, ∀ n ap, o2 = RayOutcome.detected n ap →
        1 ≤ n ∧ n ≤ maxScatter :=
      fun o2 ho2 => hall o2 (List.mem_cons_of_mem o ho2)
    rcases o with ⟨n, ap⟩ | n | n
    · have hb := hall _ (List.mem_cons_self _ _) n ap rfl
      have hidx : n - 1 < st.numScattersRay.length := by omega
      have hsum := sum_set_inc st.numScattersRay (n - 1) hidx
      have hlen2 : (recordOutcome st (RayOutcome.detected n ap)
          ).numScattersRay.length = maxScatter := by
        simp [recordOutcome, hlen]
      have ihh := ih (recordOutcome st (RayOutcome.detected n ap))
        hallrest hlen2
      obtain ⟨i1, i2, i3, i4⟩ := ihh
      refine ⟨?_, ?_, ?_, ?_⟩
      · simp only [List.foldl_cons, List.countP_cons, i1]
        simp [recordOutcome, isDetected]
        omega
      · simp only [List.foldl_cons, List.countP_cons, i2]
        simp [recordOutcome, isKilled]
      · have hrec_sum : (recordOutcome st (RayOutcome.detected n ap)
            ).numScattersRay.sum = st.numScattersRay.sum + 1 := by
          simp only [recordOutcome]
          exact hsum
        simp only [List.foldl_cons, List.countP_cons, i3, hrec_sum]
        simp [isDetected]
        omega
      · simp only [List.foldl_cons, i4]
    · have hlen2 : (recordOutcome st (RayOutcome.killed n)
          ).numScattersRay.length = maxScatter := by
        simp [recordOutcome, hlen]
      have ihh := ih (recordOutcome st (RayOutcome.killed n))
        hallrest hlen2
      obtain ⟨i1, i2, i3, i4⟩ := ihh
      refine ⟨?_, ?_, ?_, ?_⟩
      · simp only [List.foldl_cons, List.countP_cons, i1]
        simp [recordOutcome, isDetected]
      · simp only [List.foldl_cons, List.countP_cons, i2]
        simp [recordOutcome, isKilled]
        omega
      · simp only [List.foldl_cons, List.countP_cons, i3]
        simp [recordOutcome, isDetected]
      · simp only [List.foldl_cons, i4]
    · have hlen2 : (recordOutcome st (RayOutcome.escaped n)
          ).numScattersRay.length = maxScatter := by
        simp [recordOutcome, hlen]
      have ihh := ih (recordOutcome st (RayOutcome.escaped n))
        hallrest hlen2
      obtain ⟨i1, i2, i3, i4⟩ := ihh
      refine ⟨?_, ?_, ?_, ?_⟩
      · simp only [List.foldl_cons, List.countP_cons, i1]
        simp [recordOutcome, isDetected]
      · simp only [List.foldl_cons, List.countP_cons, i2]
        simp [recordOutcome, isKilled]
      · simp only [List.foldl_cons, List.countP_cons, i3]
        simp [recordOutcome, isDetected]
      · simp only [List.foldl_cons, i4]

/-- C7: over a run of the gateway loop on rays fresh from the source
(zero scatter count, directions towards the sample below the
back-wall plane), the number of detected rays plus the number of
killed rays plus the number of escaped rays equals the number of
input rays, and the detected count equals the sum of the
per-scatter-count histogram entries. -/
theorem tracing_outcome_conservation (sample : Surface3D)
    (the_sphere : AnalytSphere) (plate : NBackWall) (minInit : ℝ)
    (maxScatter : ℕ) (rays : List (Ray3D × (ℕ → Vec3)))
    (h : ∀ p ∈ rays, p.1.direction.y ≤ 0 ∧ p.1.nScatters = 0) :
    (runLoop maxScatter (simTraceOutcomes sample the_sphere plate minInit
        maxScatter rays)).cntr_detected +
      (runLoop maxScatter (simTraceOutcomes sample the_sphere plate
        minInit maxScatter rays)).killed +
      escapedCount (simTraceOutcomes sample the_sphere plate minInit
        maxScatter rays) = rays.length ∧
    (runLoop maxScatter (simTraceOutcomes sample the_sphere plate minInit
        maxScatter rays)).numScattersRay.sum =
      (runLoop maxScatter (simTraceOutcomes sample the_sphere plate
        minInit maxScatter rays)).cntr_detected := by
  have hall : ∀ o ∈ simTraceOutcomes sample the_sphere plate minInit
      maxScatter rays, ∀ n ap, o = RayOutcome.detected n ap →
      1 ≤ n ∧ n ≤ maxScatter := by
    intro o ho n ap heq
    rcases List.mem_map.mp ho with ⟨p, hp, rfl⟩
    obtain ⟨hdy, h0⟩ := h p hp
    exact trace_detected_bound sample the_sphere plate minInit p.2
      maxScatter maxScatter p.1 (by omega) (Or.inl hdy) (by omega)
      n ap heq
  have hfold := runLoop_fold maxScatter
    (simTraceOutcomes sample the_sphere plate minInit maxScatter rays)
    ⟨0, 0, List.replicate maxScatter 0⟩ hall (by simp)
  obtain ⟨h1, h2, h3, h4⟩ := hfold
  have hpart := outcome_partition
    (simTraceOutcomes sample the_sphere plate minInit maxScatter rays)
  have hlenmap : (simTraceOutcomes sample the_sphere plate minInit
      maxScatter rays).length = rays.length := by
    simp [simTraceOutcomes]
  constructor
  · simp only [runLoop] at h1 h2 ⊢
    rw [h1, h2]
    simp only [] at hpart
    omega
  · simp only [runLoop] at h1 h3 ⊢
    rw [h1, h3]
    simp

/-- Witness for C7 at a concrete run: the single-ray run of rayDown
is detected, so detected + killed + escaped = 1 and the histogram sum
equals the detected count. -/
theorem tracing_outcome_conservation_witness :
    (∀ p ∈ ([(rayDown, dirsUp)] : List (Ray3D × (ℕ → Vec3))),
      p.1.direction.y ≤ 0 ∧ p.1.nScatters = 0) ∧
    ((runLoop 2 (simTraceOutcomes sampleFloor sphereOff wallOne 1000000 2
        [(rayDown, dirsUp)])).cntr_detected +
      (runLoop 2 (simTraceOutcomes sampleFloor sphereOff wallOne 1000000 2
        [(rayDown, dirsUp)])).killed +
      escapedCount (simTraceOutcomes sampleFloor sphereOff wallOne 1000000
        2 [(rayDown, dirsUp)]) =
      ([(rayDown, dirsUp)] : List (Ray3D × (ℕ → Vec3))).length ∧
    (runLoop 2 (simTraceOutcomes sampleFloor sphereOff wallOne 1000000 2
        [(rayDown, dirsUp)])).numScattersRay.sum =
      (runLoop 2 (simTraceOutcomes sampleFloor sphereOff wallOne 1000000 2
        [(rayDown, dirsUp)])).cntr_detected) := by
  have hins : ∀ p ∈ ([(rayDown, dirsUp)] : List (Ray3D × (ℕ → Vec3))),
      p.1.direction.y ≤ 0 ∧ p.1.nScatters = 0 := by
    intro p hp
    rcases List.mem_singleton.mp hp with rfl
    exact ⟨by norm_num [rayDown], rfl⟩
  exact ⟨hins, tracing_outcome_conservation sampleFloor sphereOff wallOne
    1000000 2 [(rayDown, dirsUp)] hins⟩

/-- C8: the MEX gateway aborts with a diagnostic, producing no
outputs, whenever the number of right-hand-side inputs differs from
18 or the number of requested left-hand-side outputs differs from the
3 it returns (the in-code comment and message say six outputs while
the check and the returned tallies are three); only with 18 inputs
and 3 outputs does it trace the rays and return the three tallies. -/
theorem mexFunctionGateway_arg_check (nrhs nlhs : ℕ) (sample : Surface3D)
    (the_sphere : AnalytSphere) (plate : NBackWall) (minInit : ℝ)
    (maxScatter : ℕ) (rays : List (Ray3D × (ℕ → Vec3))) :
    ((nrhs ≠ 18 ∨ nlhs ≠ 3) →
      ∃ msg, mexFunctionGateway nrhs nlhs sample the_sphere plate minInit
        maxScatter rays = Except.error msg) ∧
    (nrhs = 18 → nlhs = 3 →
      mexFunctionGateway nrhs nlhs sample the_sphere plate minInit
        maxScatter rays = Except.ok (runLoop maxScatter
          (simTraceOutcomes sample the_sphere plate minInit maxScatter
            rays))) := by
  constructor
  · intro h
    by_cases h18 : nrhs = 18
    · rcases h with h | h3
      · exact absurd h18 h
      · refine ⟨"Six outpus required for tracingMex.", ?_⟩
        simp only [mexFunctionGateway, if_neg (by simp [h18] :
          ¬ nrhs ≠ 18), if_pos h3]
    · exact ⟨"Eighteen inputs required for tracingMex.",
        by simp only [mexFunctionGateway, if_pos h18]⟩
  · intro h18 h3
    simp only [mexFunctionGateway, if_neg (by simp [h18] : ¬ nrhs ≠ 18),
      if_neg (by simp [h3] : ¬ nlhs ≠ 3)]

/-- Witness for C8 at a concrete input: asking for six outputs (as
the in-code comment suggests) aborts the gateway with a diagnostic
and no tallies. -/
theorem mexFunctionGateway_arg_check_witness :
    ((18 : ℕ) ≠ 18 ∨ (6 : ℕ) ≠ 3) ∧
    ∃ msg, mexFunctionGateway 18 6 sampleFloor sphereOff wallOne 1000000 2
      [] = Except.error msg := by
  have h : (18 : ℕ) ≠ 18 ∨ (6 : ℕ) ≠ 3 := Or.inr (by norm_num)
  exact ⟨h, (mexFunctionGateway_arg_check 18 6 sampleFloor sphereOff
    wallOne 1000000 2 []).1 h⟩

end SHeM
